import Mathlib

/-!
Shallow embedding of the `sandbox` Go package (`sandbox.go`): a mutable
builder `Sandbox` accumulating configuration, a pure compiler
`BuildExecArgs` from configuration plus an execution request to a flat
argument vector, and the `Command` / `CommandContext` process-invocation
wrappers.  Go slices become Lean lists, `append` becomes `++`, the
`uint64` field `memLimit` becomes a `Nat` (only zero-testing and decimal
rendering are ever applied to it), and the mutable receiver of each
setter becomes explicit state passing: each setter is a function
`Sandbox → Sandbox` returning the updated value.
-/

/-- Embeds the Go struct `file` (src, dst, withLibs). -/
structure SbFile where
  src : String
  dst : String
  withLibs : Bool
deriving Repr, DecidableEq

/-- Embeds the Go struct `mountDir` (src, dst). -/
structure SbMountDir where
  src : String
  dst : String
deriving Repr, DecidableEq

/-- Embeds the Go struct `Sandbox`: the mutable builder that describes how a
program should be executed inside a sandbox. -/
structure Sandbox where
  path : String
  files : List SbFile
  mountDirs : List SbMountDir
  env : List String
  noNewNet : Bool
  cgroup : String
  cpuSet : String
  memLimit : Nat
  saveUsageStat : String
  execDir : String
deriving Repr, DecidableEq

/-- Embeds Go `New`: a fresh configuration for the given root path; all other
fields take Go's zero values (nil slices, false, empty strings, zero). -/
def New (path : String) : Sandbox :=
  { path := path, files := [], mountDirs := [], env := [], noNewNet := false,
    cgroup := "", cpuSet := "", memLimit := 0, saveUsageStat := "", execDir := "" }

/-- Embeds Go `(*Sandbox).AddFile`: appends an entry to `files`. -/
def Sandbox.AddFile (s : Sandbox) (src dst : String) (withLibs : Bool) : Sandbox :=
  { s with files := s.files ++ [{ src := src, dst := dst, withLibs := withLibs }] }

/-- Embeds Go `(*Sandbox).MountDir`: appends an entry to `mountDirs`. -/
def Sandbox.MountDir (s : Sandbox) (src dst : String) : Sandbox :=
  { s with mountDirs := s.mountDirs ++ [{ src := src, dst := dst }] }

/-- Embeds Go `(*Sandbox).AddEnv`: appends a raw entry to `env`. -/
def Sandbox.AddEnv (s : Sandbox) (value : String) : Sandbox :=
  { s with env := s.env ++ [value] }

/-- Embeds Go `(*Sandbox).SetNoNewNet`. -/
def Sandbox.SetNoNewNet (s : Sandbox) (v : Bool) : Sandbox :=
  { s with noNewNet := v }

/-- Embeds Go `(*Sandbox).SetCGroup`. -/
def Sandbox.SetCGroup (s : Sandbox) (name : String) : Sandbox :=
  { s with cgroup := name }

/-- Embeds Go `(*Sandbox).SetCpuSet`. -/
def Sandbox.SetCpuSet (s : Sandbox) (set : String) : Sandbox :=
  { s with cpuSet := set }

/-- Embeds Go `(*Sandbox).SetMemLimit`. -/
def Sandbox.SetMemLimit (s : Sandbox) (limit : Nat) : Sandbox :=
  { s with memLimit := limit }

/-- Embeds Go `(*Sandbox).SaveUsageStat`. -/
def Sandbox.SaveUsageStat (s : Sandbox) (filename : String) : Sandbox :=
  { s with saveUsageStat := filename }

/-- Embeds Go `(*Sandbox).ExecDir`. -/
def Sandbox.ExecDir (s : Sandbox) (dir : String) : Sandbox :=
  { s with execDir := dir }

/-- Embeds Go `BuildExecArgs`, statement by statement: each Go
`execArgs = append(execArgs, ...)` becomes a rebinding of `execArgs` to
`execArgs ++ [...]`; the `for` loops over `files`, `mountDirs` and `env`
become left folds; `strconv.FormatUint(s.memLimit, 10)` becomes
`Nat.repr s.memLimit`. -/
def Sandbox.BuildExecArgs (s : Sandbox) (path : String) (args : List String) : List String :=
  let execArgs := [s.path]
  let execArgs := s.files.foldl (fun acc f =>
    (acc ++ [if f.withLibs then "--add_elf_file" else "--add_file"]) ++ [f.src, f.dst]) execArgs
  let execArgs := s.mountDirs.foldl (fun acc d => acc ++ ["--mount_dir", d.src, d.dst]) execArgs
  let execArgs := s.env.foldl (fun acc e => acc ++ ["--env", e]) execArgs
  let execArgs := if s.noNewNet then execArgs ++ ["--no_new_net"] else execArgs
  let execArgs := if s.cgroup ≠ "" then execArgs ++ ["--cgroup", s.cgroup] else execArgs
  let execArgs := if s.cpuSet ≠ "" then execArgs ++ ["--cpuset", s.cpuSet] else execArgs
  let execArgs := if s.memLimit ≠ 0 then execArgs ++ ["--mem_limit", Nat.repr s.memLimit] else execArgs
  let execArgs := if s.saveUsageStat ≠ "" then execArgs ++ ["--save_usage_stat", s.saveUsageStat] else execArgs
  let execArgs := if s.execDir ≠ "" then execArgs ++ ["--exec_dir", s.execDir] else execArgs
  let execArgs := execArgs ++ ["--", path]
  execArgs ++ args

/-- Modelled from the spec: a process handle as constructed by the platform
spawn primitives.  `command prog args` stands for Go's `exec.Command(prog,
args...)` (no context) and `commandContext c prog args` for
`exec.CommandContext(ctx, prog, args...)`; the context type is abstract. -/
inductive Cmd (Ctx : Type) where
  | command (prog : String) (args : List String)
  | commandContext (c : Ctx) (prog : String) (args : List String)
deriving DecidableEq

/-- Embeds Go `(*Sandbox).CommandContext`.  `toolPath` is the value of the
process-wide variable `Path` at call time; a Go `nil` context becomes
`none`. -/
def Sandbox.CommandContext {Ctx : Type} (s : Sandbox) (toolPath : String)
    (ctx : Option Ctx) (path : String) (args : List String) : Cmd Ctx :=
  let execArgs := s.BuildExecArgs path args
  match ctx with
  | none => Cmd.command toolPath execArgs
  | some c => Cmd.commandContext c toolPath execArgs

/-- Embeds Go `(*Sandbox).Command`: delegates to `CommandContext` with a nil
context. -/
def Sandbox.Command {Ctx : Type} (s : Sandbox) (toolPath : String)
    (path : String) (args : List String) : Cmd Ctx :=
  s.CommandContext toolPath (none : Option Ctx) path args

/-- Default value of the process-wide Go variable `Path`. -/
def defaultToolPath : String := "/usr/bin/sandbox"

/-! ### The specification-side rendering

`SpecCompiledArgs` transcribes the spec's §4.2 contract word for word: the
thirteen numbered pieces concatenated in the stated order.  The per-field
segment definitions below name the spec's pieces 2–10. -/

/-- Spec piece 2, one entry: flag `--add_elf_file` if `withLibs` is true else
`--add_file`, followed by `src`, then `dst`. -/
def fileTokens (f : SbFile) : List String :=
  [(if f.withLibs then "--add_elf_file" else "--add_file"), f.src, f.dst]

/-- Spec piece 2: the `files` entries, in insertion order. -/
def filesSeg (s : Sandbox) : List String := (s.files.map fileTokens).flatten

/-- Spec piece 3, one entry: `--mount_dir`, `src`, `dst`. -/
def mountTokens (d : SbMountDir) : List String := ["--mount_dir", d.src, d.dst]

/-- Spec piece 3: the `mountDirs` entries, in insertion order. -/
def mountSeg (s : Sandbox) : List String := (s.mountDirs.map mountTokens).flatten

/-- Spec piece 4: `--env` then the raw entry, for each `env` entry in order. -/
def envSeg (s : Sandbox) : List String := (s.env.map fun e => ["--env", e]).flatten

/-- Spec piece 5: `--no_new_net`, with no value, only if `noNewNet` is true. -/
def netSeg (s : Sandbox) : List String := if s.noNewNet then ["--no_new_net"] else []

/-- Spec piece 6: `--cgroup` and the value, only if `cgroup` is non-empty. -/
def cgroupSeg (s : Sandbox) : List String :=
  if s.cgroup ≠ "" then ["--cgroup", s.cgroup] else []

/-- Spec piece 7: `--cpuset` and the value, only if `cpuSet` is non-empty. -/
def cpusetSeg (s : Sandbox) : List String :=
  if s.cpuSet ≠ "" then ["--cpuset", s.cpuSet] else []

/-- Spec piece 8: `--mem_limit` and the base-10 decimal string of `memLimit`,
only if `memLimit` is non-zero. -/
def memSeg (s : Sandbox) : List String :=
  if s.memLimit ≠ 0 then ["--mem_limit", Nat.repr s.memLimit] else []

/-- Spec piece 9: `--save_usage_stat` and the value, only if non-empty. -/
def statSeg (s : Sandbox) : List String :=
  if s.saveUsageStat ≠ "" then ["--save_usage_stat", s.saveUsageStat] else []

/-- Spec piece 10: `--exec_dir` and the value, only if non-empty. -/
def dirSeg (s : Sandbox) : List String :=
  if s.execDir ≠ "" then ["--exec_dir", s.execDir] else []

/-- The spec's §4.2 contract: pieces 1–13 concatenated in the stated order —
root path, files, mount dirs, env, the six optional scalars, the literal
separator `--`, the program path, the program arguments. -/
def SpecCompiledArgs (s : Sandbox) (path : String) (args : List String) : List String :=
  [s.path] ++ filesSeg s ++ mountSeg s ++ envSeg s ++ netSeg s ++ cgroupSeg s
    ++ cpusetSeg s ++ memSeg s ++ statSeg s ++ dirSeg s ++ ["--"] ++ [path] ++ args

/-- Everything the compiler emits before the `--` separator. -/
def configSeg (s : Sandbox) : List String :=
  [s.path] ++ filesSeg s ++ mountSeg s ++ envSeg s ++ netSeg s ++ cgroupSeg s
    ++ cpusetSeg s ++ memSeg s ++ statSeg s ++ dirSeg s

/-! ### Relating the fold-based compiler to the concatenation form -/

theorem foldl_append_eq_join {α β : Type} (g : α → List β) :
    ∀ (l : List α) (acc : List β),
      l.foldl (fun a x => a ++ g x) acc = acc ++ (l.map g).flatten := by
  intro l
  induction l with
  | nil => intro acc; simp
  | cons x xs ih => intro acc; simp [List.foldl_cons, ih]

theorem files_foldl_eq_join (l : List SbFile) (acc : List String) :
    l.foldl (fun acc f =>
      (acc ++ [if f.withLibs then "--add_elf_file" else "--add_file"]) ++ [f.src, f.dst]) acc
      = acc ++ (l.map fileTokens).flatten := by
  induction l generalizing acc with
  | nil => simp
  | cons x xs ih =>
      rw [List.foldl_cons, ih]
      simp [fileTokens, List.append_assoc]

theorem if_append_comm {c : Prop} [Decidable c] (a x : List String) :
    (if c then a ++ x else a) = a ++ (if c then x else []) := by
  split <;> simp

theorem mountTokens_def : mountTokens = fun d => ["--mount_dir", d.src, d.dst] := rfl

theorem buildExecArgs_eq_spec (s : Sandbox) (path : String) (args : List String) :
    s.BuildExecArgs path args = SpecCompiledArgs s path args := by
  simp only [Sandbox.BuildExecArgs, SpecCompiledArgs]
  rw [files_foldl_eq_join, foldl_append_eq_join, foldl_append_eq_join]
  rw [if_append_comm, if_append_comm, if_append_comm, if_append_comm, if_append_comm,
    if_append_comm]
  simp only [filesSeg, mountSeg, envSeg, netSeg, cgroupSeg, cpusetSeg, memSeg, statSeg,
    dirSeg, mountTokens_def, List.append_assoc, List.singleton_append, List.cons_append,
    List.nil_append]

theorem buildExecArgs_decomp (s : Sandbox) (path : String) (args : List String) :
    s.BuildExecArgs path args = configSeg s ++ ["--", path] ++ args := by
  rw [buildExecArgs_eq_spec]
  simp [SpecCompiledArgs, configSeg, List.append_assoc]

/-! ### C1, C2: the compiler matches the documented contract -/

/-- C1: For every `Sandbox` configuration and every execution request,
`BuildExecArgs` returns exactly the concatenation mandated by the spec's
§4.2 contract: root path, then the `files`, `mountDirs` and `env` entries in
insertion order with their flags, then the optional scalar flags in the
documented order, then `--`, the program path and the program arguments. -/
theorem C1_buildExecArgs_matches_contract (s : Sandbox) (path : String) (args : List String) :
    s.BuildExecArgs path args = SpecCompiledArgs s path args :=
  buildExecArgs_eq_spec s path args

/-- C2: The two worked examples of the spec compile exactly as listed. -/
theorem C2_worked_examples :
    (((((New "/tmp/sb").AddFile "/bin/go" "/bin/go" true).AddEnv
        "PATH=/usr/bin").SetNoNewNet true).SetMemLimit 536870912).BuildExecArgs
        "go" ["test", "./..."] =
      ["/tmp/sb", "--add_elf_file", "/bin/go", "/bin/go", "--env", "PATH=/usr/bin",
       "--no_new_net", "--mem_limit", "536870912", "--", "go", "test", "./..."] ∧
    (New "/x").BuildExecArgs "echo" ["hi"] = ["/x", "--", "echo", "hi"] :=
  ⟨rfl, rfl⟩

/-! ### Token provenance: which strings can appear in the compiled vector -/

/-- Every caller-supplied string the configuration can contribute to the
compiled vector: the root path, the file and mount-dir sources and
destinations, the env entries, the scalar string values, and the decimal
rendering of `memLimit`. -/
def configValueStrings (s : Sandbox) : List String :=
  s.path :: ((s.files.map fun f => [f.src, f.dst]).flatten
    ++ (s.mountDirs.map fun d => [d.src, d.dst]).flatten ++ s.env
    ++ [s.cgroup, s.cpuSet, Nat.repr s.memLimit, s.saveUsageStat, s.execDir])

/-- The ten flag tokens the compiler can generate before the separator. -/
def flagStrings : List String :=
  ["--add_file", "--add_elf_file", "--mount_dir", "--env", "--no_new_net",
   "--cgroup", "--cpuset", "--mem_limit", "--save_usage_stat", "--exec_dir"]

theorem path_mem_cvs (s : Sandbox) : s.path ∈ configValueStrings s :=
  List.mem_cons_self _ _

theorem mem_cvs_of_tail {s : Sandbox} {t : String}
    (h : t ∈ (s.files.map fun f => [f.src, f.dst]).flatten
      ++ (s.mountDirs.map fun d => [d.src, d.dst]).flatten ++ s.env
      ++ [s.cgroup, s.cpuSet, Nat.repr s.memLimit, s.saveUsageStat, s.execDir]) :
    t ∈ configValueStrings s :=
  List.mem_cons_of_mem _ h

theorem file_mem_cvs {s : Sandbox} {f : SbFile} (hf : f ∈ s.files) {t : String}
    (ht : t = f.src ∨ t = f.dst) : t ∈ configValueStrings s := by
  refine mem_cvs_of_tail (List.mem_append_left _ (List.mem_append_left _
    (List.mem_append_left _ ?_)))
  refine List.mem_flatten.mpr ⟨[f.src, f.dst], List.mem_map_of_mem _ hf, ?_⟩
  rcases ht with rfl | rfl <;> simp

theorem mount_mem_cvs {s : Sandbox} {d : SbMountDir} (hd : d ∈ s.mountDirs) {t : String}
    (ht : t = d.src ∨ t = d.dst) : t ∈ configValueStrings s := by
  refine mem_cvs_of_tail (List.mem_append_left _ (List.mem_append_left _
    (List.mem_append_right _ ?_)))
  refine List.mem_flatten.mpr ⟨[d.src, d.dst], List.mem_map_of_mem _ hd, ?_⟩
  rcases ht with rfl | rfl <;> simp

theorem env_mem_cvs {s : Sandbox} {t : String} (ht : t ∈ s.env) :
    t ∈ configValueStrings s :=
  mem_cvs_of_tail (List.mem_append_left _ (List.mem_append_right _ ht))

theorem scalar_mem_cvs (s : Sandbox) {t : String}
    (ht : t ∈ [s.cgroup, s.cpuSet, Nat.repr s.memLimit, s.saveUsageStat, s.execDir]) :
    t ∈ configValueStrings s :=
  mem_cvs_of_tail (List.mem_append_right _ ht)

theorem mem_fileTokens {t : String} {f : SbFile} (h : t ∈ fileTokens f) :
    t = "--add_elf_file" ∨ t = "--add_file" ∨ t = f.src ∨ t = f.dst := by
  simp only [fileTokens, List.mem_cons, List.not_mem_nil, or_false] at h
  rcases h with h | h | h
  · split at h
    · exact Or.inl h
    · exact Or.inr (Or.inl h)
  · exact Or.inr (Or.inr (Or.inl h))
  · exact Or.inr (Or.inr (Or.inr h))

theorem mem_configSeg {s : Sandbox} {t : String} (h : t ∈ configSeg s) :
    t ∈ configValueStrings s ∨ t ∈ flagStrings := by
  simp only [configSeg, List.append_assoc, List.mem_append, List.mem_singleton,
    List.cons_append, List.mem_cons, List.not_mem_nil, or_false, List.nil_append] at h
  rcases h with h | h | h | h | h | h | h | h | h | h
  · exact Or.inl (h ▸ path_mem_cvs s)
  · simp only [filesSeg] at h
    obtain ⟨l, hl, htl⟩ := List.mem_flatten.mp h
    obtain ⟨f, hf, rfl⟩ := List.mem_map.mp hl
    rcases mem_fileTokens htl with h | h | h | h
    · exact Or.inr (by simp [flagStrings, h])
    · exact Or.inr (by simp [flagStrings, h])
    · exact Or.inl (file_mem_cvs hf (Or.inl h))
    · exact Or.inl (file_mem_cvs hf (Or.inr h))
  · simp only [mountSeg] at h
    obtain ⟨l, hl, htl⟩ := List.mem_flatten.mp h
    obtain ⟨d, hd, rfl⟩ := List.mem_map.mp hl
    simp only [mountTokens, List.mem_cons, List.not_mem_nil, or_false] at htl
    rcases htl with h | h | h
    · exact Or.inr (by simp [flagStrings, h])
    · exact Or.inl (mount_mem_cvs hd (Or.inl h))
    · exact Or.inl (mount_mem_cvs hd (Or.inr h))
  · simp only [envSeg] at h
    obtain ⟨l, hl, htl⟩ := List.mem_flatten.mp h
    obtain ⟨e, he, rfl⟩ := List.mem_map.mp hl
    simp only [List.mem_cons, List.not_mem_nil, or_false] at htl
    rcases htl with h | h
    · exact Or.inr (by simp [flagStrings, h])
    · exact Or.inl (h ▸ env_mem_cvs he)
  · unfold netSeg at h
    split at h
    · simp only [List.mem_singleton] at h
      exact Or.inr (by simp [flagStrings, h])
    · cases h
  · unfold cgroupSeg at h
    split at h
    · simp only [List.mem_cons, List.not_mem_nil, or_false] at h
      rcases h with h | h
      · exact Or.inr (by simp [flagStrings, h])
      · exact Or.inl (h ▸ scalar_mem_cvs s (by simp))
    · cases h
  · unfold cpusetSeg at h
    split at h
    · simp only [List.mem_cons, List.not_mem_nil, or_false] at h
      rcases h with h | h
      · exact Or.inr (by simp [flagStrings, h])
      · exact Or.inl (h ▸ scalar_mem_cvs s (by simp))
    · cases h
  · unfold memSeg at h
    split at h
    · simp only [List.mem_cons, List.not_mem_nil, or_false] at h
      rcases h with h | h
      · exact Or.inr (by simp [flagStrings, h])
      · exact Or.inl (h ▸ scalar_mem_cvs s (by simp))
    · cases h
  · unfold statSeg at h
    split at h
    · simp only [List.mem_cons, List.not_mem_nil, or_false] at h
      rcases h with h | h
      · exact Or.inr (by simp [flagStrings, h])
      · exact Or.inl (h ▸ scalar_mem_cvs s (by simp))
    · cases h
  · unfold dirSeg at h
    split at h
    · simp only [List.mem_cons, List.not_mem_nil, or_false] at h
      rcases h with h | h
      · exact Or.inr (by simp [flagStrings, h])
      · exact Or.inl (h ▸ scalar_mem_cvs s (by simp))
    · cases h

theorem sep_not_mem_configSeg {s : Sandbox} (h : "--" ∉ configValueStrings s) :
    "--" ∉ configSeg s := by
  intro hmem
  rcases mem_configSeg hmem with hc | hf
  · exact h hc
  · simp [flagStrings] at hf

/-! ### C3: the separator -/

/-- C3 (counterexample): with the env entry `"--"`, the token `--` appears
twice in the compiled vector, so it does not appear exactly once regardless
of configuration. -/
theorem C3_counterexample :
    ((((New "/x").AddEnv "--").BuildExecArgs "p" []).count "--" = 2) ∧
    ¬ ((((New "/x").AddEnv "--").BuildExecArgs "p" []).count "--" = 1) := by
  constructor <;> decide

/-- C3 (amended): provided no caller-supplied configuration string, the
program path, and no program argument equals `"--"`, the token `--` appears
exactly once in the compiled vector, immediately before the program path:
the vector decomposes as the configuration segment followed by `--`, the
program path, and the arguments, with `--` absent from the configuration
segment. -/
theorem C3_separator_unique (s : Sandbox) (path : String) (args : List String)
    (h1 : "--" ∉ configValueStrings s) (h2 : path ≠ "--") (h3 : "--" ∉ args) :
    (s.BuildExecArgs path args).count "--" = 1 ∧
    s.BuildExecArgs path args = configSeg s ++ ["--", path] ++ args ∧
    "--" ∉ configSeg s := by
  refine ⟨?_, buildExecArgs_decomp s path args, sep_not_mem_configSeg h1⟩
  rw [buildExecArgs_decomp, List.count_append, List.count_append]
  have hc : (configSeg s).count "--" = 0 :=
    List.count_eq_zero.mpr (sep_not_mem_configSeg h1)
  have ha : args.count "--" = 0 := List.count_eq_zero.mpr h3
  rw [hc, ha]
  simp [List.count_cons, Ne.symm h2]

/-- C3 (witness): the amended separator property at a concrete input. -/
theorem C3_separator_unique_witness :
    ((((New "/tmp/sb").AddEnv "PATH=/usr/bin").BuildExecArgs "go" ["test"]).count "--" = 1) ∧
    ((New "/tmp/sb").AddEnv "PATH=/usr/bin").BuildExecArgs "go" ["test"]
      = configSeg ((New "/tmp/sb").AddEnv "PATH=/usr/bin") ++ ["--", "go"] ++ ["test"] ∧
    "--" ∉ configSeg ((New "/tmp/sb").AddEnv "PATH=/usr/bin") :=
  C3_separator_unique _ "go" ["test"] (by decide) (by decide) (by decide)

/-! ### C4: scalar setters, last-write-wins -/

/-- The six scalar fields of the builder. -/
inductive ScalarField where
  | noNewNet | cgroup | cpuSet | memLimit | saveUsageStat | execDir
deriving DecidableEq

/-- One call to a scalar setter, with its argument. -/
inductive SetterCall where
  | setNoNewNet (v : Bool)
  | setCGroup (v : String)
  | setCpuSet (v : String)
  | setMemLimit (v : Nat)
  | saveUsageStat (v : String)
  | execDir (v : String)
deriving DecidableEq

/-- The scalar field a setter call targets. -/
def SetterCall.target : SetterCall → ScalarField
  | .setNoNewNet _ => .noNewNet
  | .setCGroup _ => .cgroup
  | .setCpuSet _ => .cpuSet
  | .setMemLimit _ => .memLimit
  | .saveUsageStat _ => .saveUsageStat
  | .execDir _ => .execDir

/-- Performs one setter call through the embedded setters. -/
def applySetter (s : Sandbox) : SetterCall → Sandbox
  | .setNoNewNet v => s.SetNoNewNet v
  | .setCGroup v => s.SetCGroup v
  | .setCpuSet v => s.SetCpuSet v
  | .setMemLimit v => s.SetMemLimit v
  | .saveUsageStat v => s.SaveUsageStat v
  | .execDir v => s.ExecDir v

/-- Performs a sequence of setter calls, left to right. -/
def applySetters (s : Sandbox) (cs : List SetterCall) : Sandbox :=
  cs.foldl applySetter s

/-- The value carried by the last call of `cs` that `f` selects, if any. -/
def lastVal {α : Type} (f : SetterCall → Option α) : List SetterCall → Option α
  | [] => none
  | c :: cs => match lastVal f cs with
    | some v => some v
    | none => f c

/-- Selects the argument of a `SetNoNewNet` call. -/
def selNoNewNet : SetterCall → Option Bool
  | .setNoNewNet v => some v
  | _ => none

/-- Selects the argument of a `SetCGroup` call. -/
def selCGroup : SetterCall → Option String
  | .setCGroup v => some v
  | _ => none

/-- Selects the argument of a `SetCpuSet` call. -/
def selCpuSet : SetterCall → Option String
  | .setCpuSet v => some v
  | _ => none

/-- Selects the argument of a `SetMemLimit` call. -/
def selMemLimit : SetterCall → Option Nat
  | .setMemLimit v => some v
  | _ => none

/-- Selects the argument of a `SaveUsageStat` call. -/
def selSaveUsageStat : SetterCall → Option String
  | .saveUsageStat v => some v
  | _ => none

/-- Selects the argument of an `ExecDir` call. -/
def selExecDir : SetterCall → Option String
  | .execDir v => some v
  | _ => none

theorem applySetters_field {α : Type} (g : Sandbox → α) (f : SetterCall → Option α)
    (hcompat : ∀ (u : Sandbox) (c : SetterCall), g (applySetter u c) = (f c).getD (g u)) :
    ∀ (cs : List SetterCall) (s : Sandbox),
      g (applySetters s cs) = (lastVal f cs).getD (g s) := by
  intro cs
  induction cs with
  | nil => intro s; rfl
  | cons c cs ih =>
      intro s
      rw [applySetters, List.foldl_cons]
      have h2 := ih (applySetter s c)
      rw [applySetters] at h2
      rw [h2, hcompat]
      cases hl : lastVal f cs with
      | some v => simp [lastVal, hl]
      | none => simp [lastVal, hl]

theorem applySetter_comm (u : Sandbox) (c₁ c₂ : SetterCall)
    (h : c₁.target ≠ c₂.target) :
    applySetter (applySetter u c₁) c₂ = applySetter (applySetter u c₂) c₁ := by
  cases c₁ <;> cases c₂ <;> first
    | exact absurd rfl h
    | rfl

/-- C4: for any sequence of scalar setter calls, each scalar field ends at
the last value passed to that field's setter (or its prior value if the
setter was never called), and calls to different setters commute, so the
final field values are independent of the interleaving order among calls to
different setters. -/
theorem C4_last_write_wins (s : Sandbox) (cs : List SetterCall) :
    (applySetters s cs).noNewNet = (lastVal selNoNewNet cs).getD s.noNewNet ∧
    (applySetters s cs).cgroup = (lastVal selCGroup cs).getD s.cgroup ∧
    (applySetters s cs).cpuSet = (lastVal selCpuSet cs).getD s.cpuSet ∧
    (applySetters s cs).memLimit = (lastVal selMemLimit cs).getD s.memLimit ∧
    (applySetters s cs).saveUsageStat = (lastVal selSaveUsageStat cs).getD s.saveUsageStat ∧
    (applySetters s cs).execDir = (lastVal selExecDir cs).getD s.execDir ∧
    ∀ (u : Sandbox) (c₁ c₂ : SetterCall), c₁.target ≠ c₂.target →
      applySetter (applySetter u c₁) c₂ = applySetter (applySetter u c₂) c₁ :=
  ⟨applySetters_field Sandbox.noNewNet selNoNewNet (by intro u c; cases c <;> rfl) cs s,
   applySetters_field Sandbox.cgroup selCGroup (by intro u c; cases c <;> rfl) cs s,
   applySetters_field Sandbox.cpuSet selCpuSet (by intro u c; cases c <;> rfl) cs s,
   applySetters_field Sandbox.memLimit selMemLimit (by intro u c; cases c <;> rfl) cs s,
   applySetters_field Sandbox.saveUsageStat selSaveUsageStat (by intro u c; cases c <;> rfl) cs s,
   applySetters_field Sandbox.execDir selExecDir (by intro u c; cases c <;> rfl) cs s,
   applySetter_comm⟩

/-- C4 (witness): last-write-wins and commutation at concrete inputs. -/
theorem C4_last_write_wins_witness :
    (applySetters (New "/x")
        [SetterCall.setCGroup "a", SetterCall.setCGroup "b"]).cgroup
      = (lastVal selCGroup
          [SetterCall.setCGroup "a", SetterCall.setCGroup "b"]).getD (New "/x").cgroup ∧
    applySetter (applySetter (New "/x") (SetterCall.setCGroup "a")) (SetterCall.setMemLimit 5)
      = applySetter (applySetter (New "/x") (SetterCall.setMemLimit 5)) (SetterCall.setCGroup "a") :=
  ⟨(C4_last_write_wins (New "/x") [SetterCall.setCGroup "a", SetterCall.setCGroup "b"]).2.1,
   (C4_last_write_wins (New "/x") []).2.2.2.2.2.2 (New "/x")
     (SetterCall.setCGroup "a") (SetterCall.setMemLimit 5) (by decide)⟩

/-! ### C5: list operations, insertion order -/

/-- One call to a list-building operation of the builder. -/
inductive AddCall where
  | addFile (src dst : String) (withLibs : Bool)
  | mountDir (src dst : String)
  | addEnv (value : String)
deriving DecidableEq

/-- Performs one list-building call through the embedded operations. -/
def applyAdd (s : Sandbox) : AddCall → Sandbox
  | .addFile src dst w => s.AddFile src dst w
  | .mountDir src dst => s.MountDir src dst
  | .addEnv v => s.AddEnv v

/-- Performs a sequence of list-building calls, left to right. -/
def applyAdds (s : Sandbox) (cs : List AddCall) : Sandbox :=
  cs.foldl applyAdd s

/-- The file entries a call sequence inserts, in call order. -/
def filesOf : List AddCall → List SbFile
  | [] => []
  | AddCall.addFile src dst w :: cs => ⟨src, dst, w⟩ :: filesOf cs
  | _ :: cs => filesOf cs

/-- The mount-dir entries a call sequence inserts, in call order. -/
def mountsOf : List AddCall → List SbMountDir
  | [] => []
  | AddCall.mountDir src dst :: cs => ⟨src, dst⟩ :: mountsOf cs
  | _ :: cs => mountsOf cs

/-- The env entries a call sequence inserts, in call order. -/
def envsOf : List AddCall → List String
  | [] => []
  | AddCall.addEnv v :: cs => v :: envsOf cs
  | _ :: cs => envsOf cs

theorem applyAdds_spec (cs : List AddCall) (s : Sandbox) :
    applyAdds s cs = { s with files := s.files ++ filesOf cs,
                              mountDirs := s.mountDirs ++ mountsOf cs,
                              env := s.env ++ envsOf cs } := by
  induction cs generalizing s with
  | nil => simp [applyAdds, filesOf, mountsOf, envsOf]
  | cons c cs ih =>
      rw [applyAdds, List.foldl_cons]
      have h2 := ih (applyAdd s c)
      rw [applyAdds] at h2
      rw [h2]
      cases c <;> simp [applyAdd, Sandbox.AddFile, Sandbox.MountDir, Sandbox.AddEnv,
        filesOf, mountsOf, envsOf]

/-- C5: any sequence of `AddFile` / `MountDir` / `AddEnv` calls appends its
entries to `files`, `mountDirs` and `env` in exactly call order (duplicates
kept), and `BuildExecArgs` renders those lists entry by entry in that same
order. -/
theorem C5_insertion_order (s : Sandbox) (cs : List AddCall)
    (path : String) (args : List String) :
    (applyAdds s cs).files = s.files ++ filesOf cs ∧
    (applyAdds s cs).mountDirs = s.mountDirs ++ mountsOf cs ∧
    (applyAdds s cs).env = s.env ++ envsOf cs ∧
    (applyAdds s cs).BuildExecArgs path args =
      [s.path] ++ ((s.files ++ filesOf cs).map fileTokens).flatten
        ++ ((s.mountDirs ++ mountsOf cs).map mountTokens).flatten
        ++ ((s.env ++ envsOf cs).map fun e => ["--env", e]).flatten
        ++ netSeg s ++ cgroupSeg s ++ cpusetSeg s ++ memSeg s ++ statSeg s ++ dirSeg s
        ++ ["--", path] ++ args := by
  refine ⟨by rw [applyAdds_spec], by rw [applyAdds_spec], by rw [applyAdds_spec], ?_⟩
  rw [applyAdds_spec, buildExecArgs_eq_spec]
  simp [SpecCompiledArgs, filesSeg, mountSeg, envSeg, netSeg, cgroupSeg, cpusetSeg,
    memSeg, statSeg, dirSeg, List.append_assoc]

/-! ### C7: the boolean network flag -/

/-- C7: the compiled vector always decomposes around the network segment,
which is empty when `noNewNet` is false and exactly the single token
`--no_new_net` when it is true. -/
theorem C7_no_new_net_flag (s : Sandbox) (path : String) (args : List String) :
    s.BuildExecArgs path args
      = ([s.path] ++ filesSeg s ++ mountSeg s ++ envSeg s) ++ netSeg s
        ++ (cgroupSeg s ++ cpusetSeg s ++ memSeg s ++ statSeg s ++ dirSeg s
            ++ ["--", path] ++ args) ∧
    (s.noNewNet = false → netSeg s = []) ∧
    (s.noNewNet = true → netSeg s = ["--no_new_net"]) := by
  refine ⟨?_, fun h => by simp [netSeg, h], fun h => by simp [netSeg, h]⟩
  rw [buildExecArgs_eq_spec]
  simp [SpecCompiledArgs, List.append_assoc]

/-- C7 (witness): both branches of the boolean flag at concrete inputs. -/
theorem C7_no_new_net_flag_witness :
    netSeg (New "/x") = [] ∧
    netSeg ((New "/x").SetNoNewNet true) = ["--no_new_net"] :=
  ⟨(C7_no_new_net_flag (New "/x") "p" []).2.1 rfl,
   (C7_no_new_net_flag ((New "/x").SetNoNewNet true) "p" []).2.2 rfl⟩

/-! ### C10: Command and CommandContext -/

/-- C10: `Command` and `CommandContext` with a nil context construct the same
command: the no-context spawn primitive applied to the process-wide tool
path and `BuildExecArgs`; a non-nil context goes to the context-taking
primitive instead, and the two primitives never construct equal commands. -/
theorem C10_command_nil_context (Ctx : Type) (toolPath : String) (s : Sandbox)
    (path : String) (args : List String) :
    @Sandbox.Command Ctx s toolPath path args
      = @Sandbox.CommandContext Ctx s toolPath none path args ∧
    @Sandbox.CommandContext Ctx s toolPath none path args
      = Cmd.command toolPath (s.BuildExecArgs path args) ∧
    (∀ c : Ctx, s.CommandContext toolPath (some c) path args
      = Cmd.commandContext c toolPath (s.BuildExecArgs path args)) ∧
    (∀ (c : Ctx) (prog : String) (as : List String),
      (Cmd.command prog as : Cmd Ctx) ≠ Cmd.commandContext c prog as) :=
  ⟨rfl, rfl, fun _ => rfl, fun _ _ _ h => Cmd.noConfusion h⟩

/-! ### C6: optional scalar fields -/

theorem mem_configSeg_strong {s : Sandbox} {t : String} (h : t ∈ configSeg s) :
    t ∈ configValueStrings s ∨
    t = "--add_file" ∨ t = "--add_elf_file" ∨ t = "--mount_dir" ∨ t = "--env" ∨
    (t = "--no_new_net" ∧ s.noNewNet = true) ∨
    (t = "--cgroup" ∧ s.cgroup ≠ "") ∨
    (t = "--cpuset" ∧ s.cpuSet ≠ "") ∨
    (t = "--mem_limit" ∧ s.memLimit ≠ 0) ∨
    (t = "--save_usage_stat" ∧ s.saveUsageStat ≠ "") ∨
    (t = "--exec_dir" ∧ s.execDir ≠ "") := by
  simp only [configSeg, List.append_assoc, List.mem_append, List.mem_singleton,
    List.cons_append, List.mem_cons, List.not_mem_nil, or_false, List.nil_append] at h
  rcases h with h | h | h | h | h | h | h | h | h | h
  · exact Or.inl (h ▸ path_mem_cvs s)
  · simp only [filesSeg] at h
    obtain ⟨l, hl, htl⟩ := List.mem_flatten.mp h
    obtain ⟨f, hf, rfl⟩ := List.mem_map.mp hl
    rcases mem_fileTokens htl with h | h | h | h
    · tauto
    · tauto
    · exact Or.inl (file_mem_cvs hf (Or.inl h))
    · exact Or.inl (file_mem_cvs hf (Or.inr h))
  · simp only [mountSeg] at h
    obtain ⟨l, hl, htl⟩ := List.mem_flatten.mp h
    obtain ⟨d, hd, rfl⟩ := List.mem_map.mp hl
    simp only [mountTokens, List.mem_cons, List.not_mem_nil, or_false] at htl
    rcases htl with h | h | h
    · tauto
    · exact Or.inl (mount_mem_cvs hd (Or.inl h))
    · exact Or.inl (mount_mem_cvs hd (Or.inr h))
  · simp only [envSeg] at h
    obtain ⟨l, hl, htl⟩ := List.mem_flatten.mp h
    obtain ⟨e, he, rfl⟩ := List.mem_map.mp hl
    simp only [List.mem_cons, List.not_mem_nil, or_false] at htl
    rcases htl with h | h
    · tauto
    · exact Or.inl (h ▸ env_mem_cvs he)
  · unfold netSeg at h
    by_cases hb : s.noNewNet = true
    · rw [if_pos hb] at h
      simp only [List.mem_singleton] at h
      tauto
    · rw [if_neg hb] at h
      cases h
  · unfold cgroupSeg at h
    by_cases hb : s.cgroup = ""
    · rw [if_neg (by simp [hb])] at h
      cases h
    · rw [if_pos hb] at h
      simp only [List.mem_cons, List.not_mem_nil, or_false] at h
      rcases h with h | h
      · tauto
      · exact Or.inl (h ▸ scalar_mem_cvs s (by simp))
  · unfold cpusetSeg at h
    by_cases hb : s.cpuSet = ""
    · rw [if_neg (by simp [hb])] at h
      cases h
    · rw [if_pos hb] at h
      simp only [List.mem_cons, List.not_mem_nil, or_false] at h
      rcases h with h | h
      · tauto
      · exact Or.inl (h ▸ scalar_mem_cvs s (by simp))
  · unfold memSeg at h
    by_cases hb : s.memLimit = 0
    · rw [if_neg (by simp [hb])] at h
      cases h
    · rw [if_pos hb] at h
      simp only [List.mem_cons, List.not_mem_nil, or_false] at h
      rcases h with h | h
      · tauto
      · exact Or.inl (h ▸ scalar_mem_cvs s (by simp))
  · unfold statSeg at h
    by_cases hb : s.saveUsageStat = ""
    · rw [if_neg (by simp [hb])] at h
      cases h
    · rw [if_pos hb] at h
      simp only [List.mem_cons, List.not_mem_nil, or_false] at h
      rcases h with h | h
      · tauto
      · exact Or.inl (h ▸ scalar_mem_cvs s (by simp))
  · unfold dirSeg at h
    by_cases hb : s.execDir = ""
    · rw [if_neg (by simp [hb])] at h
      cases h
    · rw [if_pos hb] at h
      simp only [List.mem_cons, List.not_mem_nil, or_false] at h
      rcases h with h | h
      · tauto
      · exact Or.inl (h ▸ scalar_mem_cvs s (by simp))

theorem mem_build_strong {s : Sandbox} {path : String} {args : List String} {t : String}
    (h : t ∈ s.BuildExecArgs path args) :
    t ∈ configValueStrings s ∨ t = "--" ∨ t = path ∨ t ∈ args ∨
    t = "--add_file" ∨ t = "--add_elf_file" ∨ t = "--mount_dir" ∨ t = "--env" ∨
    (t = "--no_new_net" ∧ s.noNewNet = true) ∨
    (t = "--cgroup" ∧ s.cgroup ≠ "") ∨
    (t = "--cpuset" ∧ s.cpuSet ≠ "") ∨
    (t = "--mem_limit" ∧ s.memLimit ≠ 0) ∨
    (t = "--save_usage_stat" ∧ s.saveUsageStat ≠ "") ∨
    (t = "--exec_dir" ∧ s.execDir ≠ "") := by
  rw [buildExecArgs_decomp] at h
  rcases List.mem_append.mp h with h | h
  · rcases List.mem_append.mp h with h | h
    · rcases mem_configSeg_strong h with h | h | h | h | h | h | h | h | h | h | h
      · exact .inl h
      · exact .inr (.inr (.inr (.inr (.inl h))))
      · exact .inr (.inr (.inr (.inr (.inr (.inl h)))))
      · exact .inr (.inr (.inr (.inr (.inr (.inr (.inl h))))))
      · exact .inr (.inr (.inr (.inr (.inr (.inr (.inr (.inl h)))))))
      · exact .inr (.inr (.inr (.inr (.inr (.inr (.inr (.inr (.inl h))))))))
      · exact .inr (.inr (.inr (.inr (.inr (.inr (.inr (.inr (.inr (.inl h)))))))))
      · exact .inr (.inr (.inr (.inr (.inr (.inr (.inr (.inr (.inr (.inr (.inl h))))))))))
      · exact .inr (.inr (.inr (.inr (.inr (.inr (.inr (.inr (.inr (.inr (.inr (.inl h)))))))))))
      · exact .inr (.inr (.inr (.inr (.inr (.inr (.inr (.inr (.inr (.inr (.inr (.inr (.inl h))))))))))))
      · exact .inr (.inr (.inr (.inr (.inr (.inr (.inr (.inr (.inr (.inr (.inr (.inr (.inr h))))))))))))
    · simp only [List.mem_cons, List.not_mem_nil, or_false] at h
      rcases h with h | h
      · exact .inr (.inl h)
      · exact .inr (.inr (.inl h))
  · exact .inr (.inr (.inr (.inl h)))

/-- Everything emitted before the cgroup segment. -/
def preCgroup (s : Sandbox) : List String :=
  [s.path] ++ filesSeg s ++ mountSeg s ++ envSeg s ++ netSeg s

/-- Everything emitted after the cgroup segment. -/
def sufCgroup (s : Sandbox) (path : String) (args : List String) : List String :=
  cpusetSeg s ++ memSeg s ++ statSeg s ++ dirSeg s ++ ["--", path] ++ args

/-- Everything emitted before the cpuset segment. -/
def preCpuset (s : Sandbox) : List String := preCgroup s ++ cgroupSeg s

/-- Everything emitted after the cpuset segment. -/
def sufCpuset (s : Sandbox) (path : String) (args : List String) : List String :=
  memSeg s ++ statSeg s ++ dirSeg s ++ ["--", path] ++ args

/-- Everything emitted before the mem-limit segment. -/
def preMem (s : Sandbox) : List String := preCpuset s ++ cpusetSeg s

/-- Everything emitted after the mem-limit segment. -/
def sufMem (s : Sandbox) (path : String) (args : List String) : List String :=
  statSeg s ++ dirSeg s ++ ["--", path] ++ args

/-- Everything emitted before the usage-stat segment. -/
def preStat (s : Sandbox) : List String := preMem s ++ memSeg s

/-- Everything emitted after the usage-stat segment. -/
def sufStat (s : Sandbox) (path : String) (args : List String) : List String :=
  dirSeg s ++ ["--", path] ++ args

/-- Everything emitted before the exec-dir segment. -/
def preDir (s : Sandbox) : List String := preStat s ++ statSeg s

/-- Everything emitted after the exec-dir segment. -/
def sufDir (path : String) (args : List String) : List String :=
  ["--", path] ++ args

/-- C6 (counterexample): with `cgroup` left at its default but an env entry
equal to the flag string, the token `--cgroup` still occurs in the output,
so the flag is not absent from the output whenever the field is default. -/
theorem C6_counterexample :
    ((New "/x").AddEnv "--cgroup").cgroup = "" ∧
    "--cgroup" ∈ ((New "/x").AddEnv "--cgroup").BuildExecArgs "p" [] := by
  constructor
  · rfl
  · decide

/-- C6 (amended): (a) each optional scalar field left at its default yields
no occurrence of its flag in the output, provided the flag string does not
itself occur among the caller-supplied configuration strings, the program
path, or the arguments; (b) unconditionally, changing exactly one optional
scalar field from its default to a non-default value changes the compiled
vector only by inserting the flag and its value at that field's documented
position, leaving every other token unchanged. -/
theorem C6_optional_scalar_fields (s : Sandbox) (path : String) (args : List String) :
    (s.cgroup = "" → "--cgroup" ∉ configValueStrings s → path ≠ "--cgroup" →
      "--cgroup" ∉ args → "--cgroup" ∉ s.BuildExecArgs path args) ∧
    (s.cpuSet = "" → "--cpuset" ∉ configValueStrings s → path ≠ "--cpuset" →
      "--cpuset" ∉ args → "--cpuset" ∉ s.BuildExecArgs path args) ∧
    (s.memLimit = 0 → "--mem_limit" ∉ configValueStrings s → path ≠ "--mem_limit" →
      "--mem_limit" ∉ args → "--mem_limit" ∉ s.BuildExecArgs path args) ∧
    (s.saveUsageStat = "" → "--save_usage_stat" ∉ configValueStrings s →
      path ≠ "--save_usage_stat" → "--save_usage_stat" ∉ args →
      "--save_usage_stat" ∉ s.BuildExecArgs path args) ∧
    (s.execDir = "" → "--exec_dir" ∉ configValueStrings s → path ≠ "--exec_dir" →
      "--exec_dir" ∉ args → "--exec_dir" ∉ s.BuildExecArgs path args) ∧
    (∀ v, s.cgroup = "" → v ≠ "" →
      s.BuildExecArgs path args = preCgroup s ++ sufCgroup s path args ∧
      (s.SetCGroup v).BuildExecArgs path args
        = preCgroup s ++ ["--cgroup", v] ++ sufCgroup s path args) ∧
    (∀ v, s.cpuSet = "" → v ≠ "" →
      s.BuildExecArgs path args = preCpuset s ++ sufCpuset s path args ∧
      (s.SetCpuSet v).BuildExecArgs path args
        = preCpuset s ++ ["--cpuset", v] ++ sufCpuset s path args) ∧
    (∀ v : Nat, s.memLimit = 0 → v ≠ 0 →
      s.BuildExecArgs path args = preMem s ++ sufMem s path args ∧
      (s.SetMemLimit v).BuildExecArgs path args
        = preMem s ++ ["--mem_limit", Nat.repr v] ++ sufMem s path args) ∧
    (∀ v, s.saveUsageStat = "" → v ≠ "" →
      s.BuildExecArgs path args = preStat s ++ sufStat s path args ∧
      (s.SaveUsageStat v).BuildExecArgs path args
        = preStat s ++ ["--save_usage_stat", v] ++ sufStat s path args) ∧
    (∀ v, s.execDir = "" → v ≠ "" →
      s.BuildExecArgs path args = preDir s ++ sufDir path args ∧
      (s.ExecDir v).BuildExecArgs path args
        = preDir s ++ ["--exec_dir", v] ++ sufDir path args) := by
  refine ⟨?_, ?_, ?_, ?_, ?_, ?_, ?_, ?_, ?_, ?_⟩
  · intro hdef hcv hp ha hmem
    rcases mem_build_strong hmem with hm | hm | hm | hm | hm | hm | hm | hm |
      ⟨hm, hc⟩ | ⟨hm, hc⟩ | ⟨hm, hc⟩ | ⟨hm, hc⟩ | ⟨hm, hc⟩ | ⟨hm, hc⟩
    · exact hcv hm
    · exact absurd hm (by decide)
    · exact hp hm.symm
    · exact ha hm
    · exact absurd hm (by decide)
    · exact absurd hm (by decide)
    · exact absurd hm (by decide)
    · exact absurd hm (by decide)
    · exact absurd hm (by decide)
    · exact hc hdef
    · exact absurd hm (by decide)
    · exact absurd hm (by decide)
    · exact absurd hm (by decide)
    · exact absurd hm (by decide)
  · intro hdef hcv hp ha hmem
    rcases mem_build_strong hmem with hm | hm | hm | hm | hm | hm | hm | hm |
      ⟨hm, hc⟩ | ⟨hm, hc⟩ | ⟨hm, hc⟩ | ⟨hm, hc⟩ | ⟨hm, hc⟩ | ⟨hm, hc⟩
    · exact hcv hm
    · exact absurd hm (by decide)
    · exact hp hm.symm
    · exact ha hm
    · exact absurd hm (by decide)
    · exact absurd hm (by decide)
    · exact absurd hm (by decide)
    · exact absurd hm (by decide)
    · exact absurd hm (by decide)
    · exact absurd hm (by decide)
    · exact hc hdef
    · exact absurd hm (by decide)
    · exact absurd hm (by decide)
    · exact absurd hm (by decide)
  · intro hdef hcv hp ha hmem
    rcases mem_build_strong hmem with hm | hm | hm | hm | hm | hm | hm | hm |
      ⟨hm, hc⟩ | ⟨hm, hc⟩ | ⟨hm, hc⟩ | ⟨hm, hc⟩ | ⟨hm, hc⟩ | ⟨hm, hc⟩
    · exact hcv hm
    · exact absurd hm (by decide)
    · exact hp hm.symm
    · exact ha hm
    · exact absurd hm (by decide)
    · exact absurd hm (by decide)
    · exact absurd hm (by decide)
    · exact absurd hm (by decide)
    · exact absurd hm (by decide)
    · exact absurd hm (by decide)
    · exact absurd hm (by decide)
    · exact hc hdef
    · exact absurd hm (by decide)
    · exact absurd hm (by decide)
  · intro hdef hcv hp ha hmem
    rcases mem_build_strong hmem with hm | hm | hm | hm | hm | hm | hm | hm |
      ⟨hm, hc⟩ | ⟨hm, hc⟩ | ⟨hm, hc⟩ | ⟨hm, hc⟩ | ⟨hm, hc⟩ | ⟨hm, hc⟩
    · exact hcv hm
    · exact absurd hm (by decide)
    · exact hp hm.symm
    · exact ha hm
    · exact absurd hm (by decide)
    · exact absurd hm (by decide)
    · exact absurd hm (by decide)
    · exact absurd hm (by decide)
    · exact absurd hm (by decide)
    · exact absurd hm (by decide)
    · exact absurd hm (by decide)
    · exact absurd hm (by decide)
    · exact hc hdef
    · exact absurd hm (by decide)
  · intro hdef hcv hp ha hmem
    rcases mem_build_strong hmem with hm | hm | hm | hm | hm | hm | hm | hm |
      ⟨hm, hc⟩ | ⟨hm, hc⟩ | ⟨hm, hc⟩ | ⟨hm, hc⟩ | ⟨hm, hc⟩ | ⟨hm, hc⟩
    · exact hcv hm
    · exact absurd hm (by decide)
    · exact hp hm.symm
    · exact ha hm
    · exact absurd hm (by decide)
    · exact absurd hm (by decide)
    · exact absurd hm (by decide)
    · exact absurd hm (by decide)
    · exact absurd hm (by decide)
    · exact absurd hm (by decide)
    · exact absurd hm (by decide)
    · exact absurd hm (by decide)
    · exact absurd hm (by decide)
    · exact hc hdef
  · intro v hdef hv
    constructor
    · rw [buildExecArgs_eq_spec]
      have hz : cgroupSeg s = [] := by simp [cgroupSeg, hdef]
      simp [SpecCompiledArgs, preCgroup, sufCgroup, hz, List.append_assoc]
    · rw [buildExecArgs_eq_spec]
      have hz : cgroupSeg (s.SetCGroup v) = ["--cgroup", v] := by
        simp [cgroupSeg, Sandbox.SetCGroup, hv]
      have e1 : filesSeg (s.SetCGroup v) = filesSeg s := rfl
      have e2 : mountSeg (s.SetCGroup v) = mountSeg s := rfl
      have e3 : envSeg (s.SetCGroup v) = envSeg s := rfl
      have e4 : netSeg (s.SetCGroup v) = netSeg s := rfl
      have e5 : cpusetSeg (s.SetCGroup v) = cpusetSeg s := rfl
      have e6 : memSeg (s.SetCGroup v) = memSeg s := rfl
      have e7 : statSeg (s.SetCGroup v) = statSeg s := rfl
      have e8 : dirSeg (s.SetCGroup v) = dirSeg s := rfl
      simp only [SpecCompiledArgs, hz, e1, e2, e3, e4, e5, e6, e7, e8]
      simp [preCgroup, sufCgroup, Sandbox.SetCGroup, List.append_assoc]
  · intro v hdef hv
    constructor
    · rw [buildExecArgs_eq_spec]
      have hz : cpusetSeg s = [] := by simp [cpusetSeg, hdef]
      simp [SpecCompiledArgs, preCpuset, preCgroup, sufCpuset, hz, List.append_assoc]
    · rw [buildExecArgs_eq_spec]
      have hz : cpusetSeg (s.SetCpuSet v) = ["--cpuset", v] := by
        simp [cpusetSeg, Sandbox.SetCpuSet, hv]
      have e1 : filesSeg (s.SetCpuSet v) = filesSeg s := rfl
      have e2 : mountSeg (s.SetCpuSet v) = mountSeg s := rfl
      have e3 : envSeg (s.SetCpuSet v) = envSeg s := rfl
      have e4 : netSeg (s.SetCpuSet v) = netSeg s := rfl
      have e5 : cgroupSeg (s.SetCpuSet v) = cgroupSeg s := rfl
      have e6 : memSeg (s.SetCpuSet v) = memSeg s := rfl
      have e7 : statSeg (s.SetCpuSet v) = statSeg s := rfl
      have e8 : dirSeg (s.SetCpuSet v) = dirSeg s := rfl
      simp only [SpecCompiledArgs, hz, e1, e2, e3, e4, e5, e6, e7, e8]
      simp [preCpuset, preCgroup, sufCpuset, Sandbox.SetCpuSet, List.append_assoc]
  · intro v hdef hv
    constructor
    · rw [buildExecArgs_eq_spec]
      have hz : memSeg s = [] := by simp [memSeg, hdef]
      simp [SpecCompiledArgs, preMem, preCpuset, preCgroup, sufMem, hz, List.append_assoc]
    · rw [buildExecArgs_eq_spec]
      have hz : memSeg (s.SetMemLimit v) = ["--mem_limit", Nat.repr v] := by
        simp [memSeg, Sandbox.SetMemLimit, hv]
      have e1 : filesSeg (s.SetMemLimit v) = filesSeg s := rfl
      have e2 : mountSeg (s.SetMemLimit v) = mountSeg s := rfl
      have e3 : envSeg (s.SetMemLimit v) = envSeg s := rfl
      have e4 : netSeg (s.SetMemLimit v) = netSeg s := rfl
      have e5 : cgroupSeg (s.SetMemLimit v) = cgroupSeg s := rfl
      have e6 : cpusetSeg (s.SetMemLimit v) = cpusetSeg s := rfl
      have e7 : statSeg (s.SetMemLimit v) = statSeg s := rfl
      have e8 : dirSeg (s.SetMemLimit v) = dirSeg s := rfl
      simp only [SpecCompiledArgs, hz, e1, e2, e3, e4, e5, e6, e7, e8]
      simp [preMem, preCpuset, preCgroup, sufMem, Sandbox.SetMemLimit, List.append_assoc]
  · intro v hdef hv
    constructor
    · rw [buildExecArgs_eq_spec]
      have hz : statSeg s = [] := by simp [statSeg, hdef]
      simp [SpecCompiledArgs, preStat, preMem, preCpuset, preCgroup, sufStat, hz,
        List.append_assoc]
    · rw [buildExecArgs_eq_spec]
      have hz : statSeg (s.SaveUsageStat v) = ["--save_usage_stat", v] := by
        simp [statSeg, Sandbox.SaveUsageStat, hv]
      have e1 : filesSeg (s.SaveUsageStat v) = filesSeg s := rfl
      have e2 : mountSeg (s.SaveUsageStat v) = mountSeg s := rfl
      have e3 : envSeg (s.SaveUsageStat v) = envSeg s := rfl
      have e4 : netSeg (s.SaveUsageStat v) = netSeg s := rfl
      have e5 : cgroupSeg (s.SaveUsageStat v) = cgroupSeg s := rfl
      have e6 : cpusetSeg (s.SaveUsageStat v) = cpusetSeg s := rfl
      have e7 : memSeg (s.SaveUsageStat v) = memSeg s := rfl
      have e8 : dirSeg (s.SaveUsageStat v) = dirSeg s := rfl
      simp only [SpecCompiledArgs, hz, e1, e2, e3, e4, e5, e6, e7, e8]
      simp [preStat, preMem, preCpuset, preCgroup, sufStat, Sandbox.SaveUsageStat,
        List.append_assoc]
  · intro v hdef hv
    constructor
    · rw [buildExecArgs_eq_spec]
      have hz : dirSeg s = [] := by simp [dirSeg, hdef]
      simp [SpecCompiledArgs, preDir, preStat, preMem, preCpuset, preCgroup, sufDir, hz,
        List.append_assoc]
    · rw [buildExecArgs_eq_spec]
      have hz : dirSeg (s.ExecDir v) = ["--exec_dir", v] := by
        simp [dirSeg, Sandbox.ExecDir, hv]
      have e1 : filesSeg (s.ExecDir v) = filesSeg s := rfl
      have e2 : mountSeg (s.ExecDir v) = mountSeg s := rfl
      have e3 : envSeg (s.ExecDir v) = envSeg s := rfl
      have e4 : netSeg (s.ExecDir v) = netSeg s := rfl
      have e5 : cgroupSeg (s.ExecDir v) = cgroupSeg s := rfl
      have e6 : cpusetSeg (s.ExecDir v) = cpusetSeg s := rfl
      have e7 : memSeg (s.ExecDir v) = memSeg s := rfl
      have e8 : statSeg (s.ExecDir v) = statSeg s := rfl
      simp only [SpecCompiledArgs, hz, e1, e2, e3, e4, e5, e6, e7, e8]
      simp [preDir, preStat, preMem, preCpuset, preCgroup, sufDir, Sandbox.ExecDir,
        List.append_assoc]

/-- C6 (witness): absence and two-token insertion at concrete inputs. -/
theorem C6_optional_scalar_fields_witness :
    "--cgroup" ∉ ((New "/tmp/sb").AddEnv "A=B").BuildExecArgs "go" ["hi"] ∧
    "--cpuset" ∉ ((New "/tmp/sb").AddEnv "A=B").BuildExecArgs "go" ["hi"] ∧
    "--mem_limit" ∉ ((New "/tmp/sb").AddEnv "A=B").BuildExecArgs "go" ["hi"] ∧
    "--save_usage_stat" ∉ ((New "/tmp/sb").AddEnv "A=B").BuildExecArgs "go" ["hi"] ∧
    "--exec_dir" ∉ ((New "/tmp/sb").AddEnv "A=B").BuildExecArgs "go" ["hi"] ∧
    (((New "/tmp/sb").AddEnv "A=B").SetCGroup "g").BuildExecArgs "go" ["hi"]
      = preCgroup ((New "/tmp/sb").AddEnv "A=B") ++ ["--cgroup", "g"]
        ++ sufCgroup ((New "/tmp/sb").AddEnv "A=B") "go" ["hi"] ∧
    (((New "/tmp/sb").AddEnv "A=B").SetCpuSet "0-1").BuildExecArgs "go" ["hi"]
      = preCpuset ((New "/tmp/sb").AddEnv "A=B") ++ ["--cpuset", "0-1"]
        ++ sufCpuset ((New "/tmp/sb").AddEnv "A=B") "go" ["hi"] ∧
    (((New "/tmp/sb").AddEnv "A=B").SetMemLimit 7).BuildExecArgs "go" ["hi"]
      = preMem ((New "/tmp/sb").AddEnv "A=B") ++ ["--mem_limit", Nat.repr 7]
        ++ sufMem ((New "/tmp/sb").AddEnv "A=B") "go" ["hi"] ∧
    (((New "/tmp/sb").AddEnv "A=B").SaveUsageStat "u").BuildExecArgs "go" ["hi"]
      = preStat ((New "/tmp/sb").AddEnv "A=B") ++ ["--save_usage_stat", "u"]
        ++ sufStat ((New "/tmp/sb").AddEnv "A=B") "go" ["hi"] ∧
    (((New "/tmp/sb").AddEnv "A=B").ExecDir "d").BuildExecArgs "go" ["hi"]
      = preDir ((New "/tmp/sb").AddEnv "A=B") ++ ["--exec_dir", "d"]
        ++ sufDir "go" ["hi"] := by
  have h := C6_optional_scalar_fields ((New "/tmp/sb").AddEnv "A=B") "go" ["hi"]
  exact ⟨h.1 rfl (by decide) (by decide) (by decide),
    h.2.1 rfl (by decide) (by decide) (by decide),
    h.2.2.1 rfl (by decide) (by decide) (by decide),
    h.2.2.2.1 rfl (by decide) (by decide) (by decide),
    h.2.2.2.2.1 rfl (by decide) (by decide) (by decide),
    (h.2.2.2.2.2.1 "g" rfl (by decide)).2,
    (h.2.2.2.2.2.2.1 "0-1" rfl (by decide)).2,
    (h.2.2.2.2.2.2.2.1 7 rfl (by decide)).2,
    (h.2.2.2.2.2.2.2.2.1 "u" rfl (by decide)).2,
    (h.2.2.2.2.2.2.2.2.2 "d" rfl (by decide)).2⟩

/-! ### C8, C9: the compiler as a call on an explicit receiver state -/

/-- The method call `s.BuildExecArgs(path, args)` with the receiver state
made explicit: the body of the Go method transcribed statement by statement
(as in `Sandbox.BuildExecArgs`), returning the receiver next to the result.
The Go body contains no assignment to any field of `s` — only the local
slice `execArgs` is rebound — so the returned receiver is the one passed
in, unchanged. -/
def Sandbox.BuildExecArgsCall (s : Sandbox) (path : String) (args : List String) :
    Sandbox × List String :=
  let execArgs := [s.path]
  let execArgs := s.files.foldl (fun acc f =>
    (acc ++ [if f.withLibs then "--add_elf_file" else "--add_file"]) ++ [f.src, f.dst]) execArgs
  let execArgs := s.mountDirs.foldl (fun acc d => acc ++ ["--mount_dir", d.src, d.dst]) execArgs
  let execArgs := s.env.foldl (fun acc e => acc ++ ["--env", e]) execArgs
  let execArgs := if s.noNewNet then execArgs ++ ["--no_new_net"] else execArgs
  let execArgs := if s.cgroup ≠ "" then execArgs ++ ["--cgroup", s.cgroup] else execArgs
  let execArgs := if s.cpuSet ≠ "" then execArgs ++ ["--cpuset", s.cpuSet] else execArgs
  let execArgs := if s.memLimit ≠ 0 then execArgs ++ ["--mem_limit", Nat.repr s.memLimit] else execArgs
  let execArgs := if s.saveUsageStat ≠ "" then execArgs ++ ["--save_usage_stat", s.saveUsageStat] else execArgs
  let execArgs := if s.execDir ≠ "" then execArgs ++ ["--exec_dir", s.execDir] else execArgs
  let execArgs := execArgs ++ ["--", path]
  (s, execArgs ++ args)

/-- C8: compiling never mutates the configuration: the receiver after the
call equals the receiver before it, field by field; the result is the pure
`BuildExecArgs` of the incoming configuration; and recompiling the returned
receiver against any other execution request gives the pure compilation of
the original configuration against that request. -/
theorem C8_no_mutation (s : Sandbox) (path : String) (args : List String) :
    (s.BuildExecArgsCall path args).1 = s ∧
    ((s.BuildExecArgsCall path args).1.path = s.path ∧
     (s.BuildExecArgsCall path args).1.files = s.files ∧
     (s.BuildExecArgsCall path args).1.mountDirs = s.mountDirs ∧
     (s.BuildExecArgsCall path args).1.env = s.env ∧
     (s.BuildExecArgsCall path args).1.noNewNet = s.noNewNet ∧
     (s.BuildExecArgsCall path args).1.cgroup = s.cgroup ∧
     (s.BuildExecArgsCall path args).1.cpuSet = s.cpuSet ∧
     (s.BuildExecArgsCall path args).1.memLimit = s.memLimit ∧
     (s.BuildExecArgsCall path args).1.saveUsageStat = s.saveUsageStat ∧
     (s.BuildExecArgsCall path args).1.execDir = s.execDir) ∧
    (s.BuildExecArgsCall path args).2 = s.BuildExecArgs path args ∧
    ∀ (path₂ : String) (args₂ : List String),
      ((s.BuildExecArgsCall path args).1.BuildExecArgsCall path₂ args₂).2
        = s.BuildExecArgs path₂ args₂ :=
  ⟨rfl, ⟨rfl, rfl, rfl, rfl, rfl, rfl, rfl, rfl, rfl, rfl⟩, rfl, fun _ _ => rfl⟩

/-- C9: compilation is deterministic and idempotent: compiling, then
compiling the returned receiver against the same execution request, yields
identical output vectors. -/
theorem C9_idempotent (s : Sandbox) (path : String) (args : List String) :
    (s.BuildExecArgsCall path args).2
      = ((s.BuildExecArgsCall path args).1.BuildExecArgsCall path args).2 ∧
    s.BuildExecArgs path args = s.BuildExecArgs path args :=
  ⟨rfl, rfl⟩

/-- C10 (witness): the nil-context equalities and the primitive-distinctness
fact at concrete inputs. -/
theorem C10_command_nil_context_witness :
    @Sandbox.Command Unit (New "/x") "/usr/bin/sandbox" "echo" ["hi"]
      = Cmd.command "/usr/bin/sandbox" ((New "/x").BuildExecArgs "echo" ["hi"]) ∧
    (Cmd.command "p" [] : Cmd Unit) ≠ Cmd.commandContext () "p" [] := by
  have h := C10_command_nil_context Unit "/usr/bin/sandbox" (New "/x") "echo" ["hi"]
  exact ⟨h.1.trans h.2.1, h.2.2.2 () "p" []⟩
